import Mathlib

/-!
# CampusKnowledgeBase — verification of the retrieval-and-answer-scoring subsystem

A shallow embedding of the CampusKnowledgeBase RAG core: document chunking,
vector indexing with metadata filtering, semantic retrieval, answer generation
orchestration and confidence scoring with a deterministic lexical-overlap
fallback.  The repository ships the backend components (askllm.py, rag.py,
ingestion/chunker.py, ingestion/ingest.py) only through its documentation, so
the component definitions below are modelled from the specification text;
the login page component is translated from frontend/src/app/login/page.tsx.

Remote LLM and embedding calls are modelled as oracles: an `Option` result in
which `none` stands for any failure of the remote call (network error,
timeout, malformed or non-numeric response).
-/

/-! ## Lexical analysis for the fallback scorer -/

/-- Modelled from the spec: the Answer Service's fallback scorer applies
"stop-word filtering and case-insensitivity ... before counting".  A word
character is a letter or digit; everything else separates words. -/
def isWordChar (c : Char) : Bool := c.isAlphanum

/-- Tokenizer worker: walks the character list, lower-casing word characters
and emitting a word at every separator.  `acc` holds the current word
reversed. -/
def wordsAux : List Char → List Char → List String
  | [], acc => if acc.isEmpty then [] else [String.mk acc.reverse]
  | c :: cs, acc =>
    if isWordChar c then wordsAux cs (c.toLower :: acc)
    else if acc.isEmpty then wordsAux cs []
    else String.mk acc.reverse :: wordsAux cs []

/-- Case-insensitive word list of a string. -/
def words (s : String) : List String := wordsAux s.data []

/-- Modelled from the spec: the stop-word list used by the fallback scorer
(the spec requires stop-word filtering but does not enumerate the list; this
is a standard small English list). -/
def stopWords : List String :=
  ["a", "an", "the", "is", "are", "was", "were", "be", "been", "of", "to",
   "in", "on", "at", "by", "for", "and", "or", "as", "it", "this", "that",
   "with", "from"]

/-- The distinct significant words of a string: tokenize, drop stop words,
deduplicate. -/
def significantWords (s : String) : List String :=
  ((words s).filter (fun w => ¬ stopWords.contains w)).dedup

/-- The distinct significant words shared between the answer and the
concatenated context. -/
def sharedWords (ans ctx : String) : List String :=
  (significantWords ans).filter (fun w => (significantWords ctx).contains w)

/-- Clamp a rational to the closed interval [0, 1]. -/
def clamp01 (x : ℚ) : ℚ := max 0 (min 1 x)

/-- Modelled from the spec: the deterministic lexical-overlap fallback score,
"score = (count of distinct significant words shared between answer and
concatenated context) / (count of distinct significant words in the answer),
clamped to [0.0, 1.0]".  (In ℚ a division by zero evaluates to 0, so an
answer with no significant words scores 0.) -/
def fallbackScore (ans ctx : String) : ℚ :=
  clamp01 (((sharedWords ans ctx).length : ℚ) / ((significantWords ans).length : ℚ))

/-- `a` occurs verbatim (character for character) inside `b`. -/
def isVerbatimSubstring (a b : String) : Prop := a.data <:+: b.data

instance (a b : String) : Decidable (isVerbatimSubstring a b) :=
  List.decidableInfix a.data b.data

/-! ## Answer Service -/

/-- A retrieved source passage handed to the Answer Service. -/
structure SourcePassage where
  text : String
  course : String
  semester : String
deriving DecidableEq, Repr

/-- The grounding context: retrieved passages concatenated. -/
def concatContext (ps : List SourcePassage) : String :=
  String.intercalate " " (ps.map SourcePassage.text)

/-- Result of a successful `answer` call. -/
structure AnswerResult where
  answer_text : String
  accuracy_score : ℚ
deriving DecidableEq, Repr

/-- Errors surfaced by the Answer Service. -/
inductive ServiceError where
  | generationUnavailable
deriving DecidableEq, Repr

/-- Modelled from the spec: `answer(question, retrieved_passages)` of the
Answer Service (askllm.py is absent from the sources).  `gen` is the
generation LLM oracle (`none` = the generation call failed), `scoring` is the
scoring LLM oracle (`none` = network error, timeout, malformed or non-numeric
response).  A generation failure aborts with `GenerationUnavailableError`;
a scoring failure degrades to the lexical-overlap fallback; a returned
numeric rating is clamped to [0, 1]. -/
def answerService (gen : Option String) (scoring : Option ℚ)
    (_question : String) (ps : List SourcePassage) :
    Except ServiceError AnswerResult :=
  match gen with
  | none => .error .generationUnavailable
  | some txt =>
    let score :=
      match scoring with
      | some r => clamp01 r
      | none => fallbackScore txt (concatContext ps)
    .ok { answer_text := txt, accuracy_score := score }

/-! ## Basic facts about clamping and the fallback scorer -/

lemma clamp01_nonneg (x : ℚ) : 0 ≤ clamp01 x := le_max_left 0 _

lemma clamp01_le_one (x : ℚ) : clamp01 x ≤ 1 :=
  max_le (by norm_num) (min_le_left 1 x)

lemma clamp01_zero : clamp01 0 = 0 := by norm_num [clamp01]

lemma clamp01_one : clamp01 1 = 1 := by norm_num [clamp01]

/-- C1: every accuracy score produced by a successful `answer` call lies in
the closed interval [0, 1], on both the LLM scoring path and the
lexical-overlap fallback path. -/
theorem answerService_score_bounded (gen : Option String) (scoring : Option ℚ)
    (q : String) (ps : List SourcePassage) (r : AnswerResult)
    (h : answerService gen scoring q ps = .ok r) :
    0 ≤ r.accuracy_score ∧ r.accuracy_score ≤ 1 := by
  cases gen with
  | none => simp [answerService] at h
  | some txt =>
    cases scoring with
    | none =>
      simp only [answerService, Except.ok.injEq] at h
      subst h
      exact ⟨clamp01_nonneg _, clamp01_le_one _⟩
    | some v =>
      simp only [answerService, Except.ok.injEq] at h
      subst h
      exact ⟨clamp01_nonneg _, clamp01_le_one _⟩

/-- Witness for C1: the bound evaluated at a concrete call. -/
theorem answerService_score_bounded_witness :
    0 ≤ (AnswerResult.mk "an answer" (1/2 : ℚ)).accuracy_score ∧
      (AnswerResult.mk "an answer" (1/2 : ℚ)).accuracy_score ≤ 1 :=
  answerService_score_bounded (some "an answer") (some (1/2)) "q" []
    (AnswerResult.mk "an answer" (1/2)) (by norm_num [answerService, clamp01])

lemma sharedWords_sublist (ans ctx : String) :
    (sharedWords ans ctx).Sublist (significantWords ans) :=
  List.filter_sublist _

lemma fallbackScore_of_no_overlap (ans ctx : String)
    (h : sharedWords ans ctx = []) : fallbackScore ans ctx = 0 := by
  simp [fallbackScore, h, clamp01_zero]

lemma fallbackScore_of_covered (ans ctx : String)
    (hne : significantWords ans ≠ [])
    (hsub : ∀ w ∈ significantWords ans, w ∈ significantWords ctx) :
    fallbackScore ans ctx = 1 := by
  have hfull : sharedWords ans ctx = significantWords ans := by
    unfold sharedWords
    apply List.filter_eq_self.mpr
    intro w hw
    simpa [List.contains] using List.elem_eq_true_of_mem (hsub w hw)
  have hlen : ((significantWords ans).length : ℚ) ≠ 0 := by
    have : (significantWords ans).length ≠ 0 := by
      simpa [List.length_eq_zero] using hne
    exact_mod_cast this
  unfold fallbackScore
  rw [hfull, div_self hlen, clamp01_one]

/-- C2 (amended): the fallback score is the clamped ratio of distinct shared
significant words to distinct significant answer words; an answer sharing no
significant word with the context scores 0, and an answer with at least one
significant word all of whose significant words occur in the context scores
1. -/
theorem fallbackScore_correct :
    (∀ ans ctx, fallbackScore ans ctx =
      clamp01 (((sharedWords ans ctx).length : ℚ) /
        ((significantWords ans).length : ℚ))) ∧
    (∀ ans ctx, sharedWords ans ctx = [] → fallbackScore ans ctx = 0) ∧
    (∀ ans ctx, significantWords ans ≠ [] →
      (∀ w ∈ significantWords ans, w ∈ significantWords ctx) →
      fallbackScore ans ctx = 1) :=
  ⟨fun _ _ => rfl, fallbackScore_of_no_overlap, fallbackScore_of_covered⟩

/-- Witness for C2: the amended statement evaluated at concrete strings. -/
theorem fallbackScore_correct_witness :
    fallbackScore "quantum" "binary search tree" = 0 ∧
      fallbackScore "Binary search" "use binary search here" = 1 :=
  ⟨fallbackScore_correct.2.1 "quantum" "binary search tree" (by decide),
   fallbackScore_correct.2.2 "Binary search" "use binary search here"
     (by decide) (by decide)⟩

/-- Counterexample for C2 as stated: "ry search" occurs verbatim inside
"binary search tree structure", yet its fallback score is 1/2, not 1: the
substring cuts the word "binary", so the fragment "ry" is a significant word
of the answer that never occurs as a word of the context. -/
theorem fallbackScore_substring_cex :
    isVerbatimSubstring "ry search" "binary search tree structure" ∧
      fallbackScore "ry search" "binary search tree structure" ≠ 1 := by
  constructor
  · decide
  · have h1 : sharedWords "ry search" "binary search tree structure" =
        ["search"] := by decide
    have h2 : significantWords "ry search" = ["ry", "search"] := by decide
    rw [fallbackScore, h1, h2]
    norm_num [clamp01, min_def, max_def]

/-- C3: `answer` fails exactly when the generation LLM call fails, and then
with `GenerationUnavailableError`; a scoring-call failure never fails the
operation — every successful generation yields a result carrying the
generated text and a numeric accuracy score. -/
theorem answerService_fail_iff (gen : Option String) (scoring : Option ℚ)
    (q : String) (ps : List SourcePassage) :
    ((∃ r, answerService gen scoring q ps = .ok r) ↔ ∃ t, gen = some t) ∧
    (gen = none →
      answerService gen scoring q ps = .error .generationUnavailable) ∧
    (∀ t, gen = some t →
      ∃ r, answerService gen scoring q ps = .ok r ∧ r.answer_text = t) := by
  refine ⟨?_, ?_, ?_⟩
  · cases gen with
    | none => simp [answerService]
    | some t => simp [answerService]
  · intro h; subst h; rfl
  · intro t h
    subst h
    cases scoring with
    | none => exact ⟨_, rfl, rfl⟩
    | some v => exact ⟨_, rfl, rfl⟩

/-- Witness for C3: a failed generation call surfaces the error, and a failed
scoring call still yields a result with the generated text. -/
theorem answerService_fail_iff_witness :
    (answerService none (some (1/2)) "q" [] =
      .error .generationUnavailable) ∧
    ∃ r, answerService (some "the answer") none "q" [] = .ok r ∧
      r.answer_text = "the answer" :=
  ⟨(answerService_fail_iff none (some (1/2)) "q" []).2.1 rfl,
   (answerService_fail_iff (some "the answer") none "q" []).2.2
     "the answer" rfl⟩

/-! ## Data model: chunks and the vector index -/

/-- Chunk identifier, derived from the document id plus the sequence index
of the chunk within the document (spec 4.1: "ids derived from document id +
sequence index, not content hash"). -/
structure ChunkId where
  docId : String
  idx : Nat
deriving DecidableEq, Repr

/-- A chunk record of the chunk-metadata store (spec section 3): a contiguous
piece of a document together with provenance metadata and its character
offset range. -/
structure Chunk where
  id : ChunkId
  course : String
  semester : String
  subject : String
  startPos : Nat
  stopPos : Nat
  text : String
deriving DecidableEq, Repr

/-- An embedding vector (fixed-dimension dense vector, rationals standing in
for floats). -/
abbrev Vec : Type := List ℚ

/-- One entry of the Vector Index: a chunk id with its embedding. -/
structure IndexEntry where
  cid : ChunkId
  vec : Vec
deriving DecidableEq

/-- The candidate order used by the index search: ascending distance under
the configured metric `m` from the query `q`, ties broken by ascending
chunk id (document id lexicographically, then sequence index). -/
def entryLE (m : Vec → Vec → ℚ) (q : Vec) (a b : IndexEntry) : Prop :=
  m q a.vec < m q b.vec ∨
    (m q a.vec = m q b.vec ∧
      (a.cid.docId < b.cid.docId ∨
        (a.cid.docId = b.cid.docId ∧ a.cid.idx ≤ b.cid.idx)))

instance (m : Vec → Vec → ℚ) (q : Vec) : DecidableRel (entryLE m q) :=
  fun a b => by unfold entryLE; exact inferInstance

/-- The sort key realizing `entryLE` as a lexicographic comparison. -/
def searchKey (m : Vec → Vec → ℚ) (q : Vec) (e : IndexEntry) :
    ℚ ×ₗ (String ×ₗ ℕ) :=
  toLex (m q e.vec, toLex (e.cid.docId, e.cid.idx))

lemma entryLE_iff_key (m : Vec → Vec → ℚ) (q : Vec) (a b : IndexEntry) :
    entryLE m q a b ↔ searchKey m q a ≤ searchKey m q b := by
  simp [entryLE, searchKey, Prod.Lex.le_iff]

lemma entryLE_total (m : Vec → Vec → ℚ) (q : Vec) (a b : IndexEntry) :
    entryLE m q a b ∨ entryLE m q b a := by
  rw [entryLE_iff_key, entryLE_iff_key]
  exact le_total _ _

lemma entryLE_trans (m : Vec → Vec → ℚ) (q : Vec) (a b c : IndexEntry)
    (hab : entryLE m q a b) (hbc : entryLE m q b c) : entryLE m q a c := by
  rw [entryLE_iff_key] at hab hbc ⊢
  exact le_trans hab hbc

/-- Modelled from the spec: the Vector Index search (rag.py is absent from
the sources).  Candidates passing the optional pre-filter are ordered by
ascending distance with ties broken by ascending chunk id, and the first `k`
are returned.  This realizes the exact pre-filter policy of spec 4.3. -/
def searchEntries (m : Vec → Vec → ℚ) (q : Vec) (k : Nat)
    (filt : ChunkId → Bool) (entries : List IndexEntry) : List IndexEntry :=
  ((entries.filter (fun e => filt e.cid)).insertionSort (entryLE m q)).take k

/-- `search(query_vector, k, candidate_filter)` of the Vector Index:
ordered (chunk_id, distance) pairs. -/
def searchIndex (m : Vec → Vec → ℚ) (q : Vec) (k : Nat)
    (filt : ChunkId → Bool) (entries : List IndexEntry) :
    List (ChunkId × ℚ) :=
  (searchEntries m q k filt entries).map (fun e => (e.cid, m q e.vec))

/-- C5: the index search returns exactly min(k, number of matching chunks)
results (hence never fewer when the filter set is non-empty), the results
are ordered by distance with ties broken by ascending chunk id, and they are
the k nearest: the returned entries together with some rest permute the full
candidate set and every returned entry precedes every left-out candidate in
the candidate order. -/
theorem search_returns_k_nearest (m : Vec → Vec → ℚ) (q : Vec) (k : Nat)
    (filt : ChunkId → Bool) (entries : List IndexEntry) :
    (searchEntries m q k filt entries).length =
      min k (entries.filter (fun e => filt e.cid)).length ∧
    List.Sorted (entryLE m q) (searchEntries m q k filt entries) ∧
    (∃ rest,
      (searchEntries m q k filt entries ++ rest).Perm
        (entries.filter (fun e => filt e.cid)) ∧
      ∀ a ∈ searchEntries m q k filt entries, ∀ b ∈ rest, entryLE m q a b) ∧
    searchIndex m q k filt entries =
      (searchEntries m q k filt entries).map (fun e => (e.cid, m q e.vec)) := by
  haveI : IsTotal IndexEntry (entryLE m q) := ⟨entryLE_total m q⟩
  haveI : IsTrans IndexEntry (entryLE m q) := ⟨entryLE_trans m q⟩
  set cands := entries.filter (fun e => filt e.cid) with hcands
  have hperm := List.perm_insertionSort (entryLE m q) cands
  have hsorted := List.sorted_insertionSort (entryLE m q) cands
  set s := cands.insertionSort (entryLE m q) with hs
  have hsplit : s.take k ++ s.drop k = s := List.take_append_drop k s
  have hpw : List.Pairwise (entryLE m q) (s.take k ++ s.drop k) := by
    rw [hsplit]; exact hsorted
  rw [List.pairwise_append] at hpw
  refine ⟨?_, ?_, ⟨s.drop k, ?_, hpw.2.2⟩, rfl⟩
  · rw [searchEntries, ← hs, List.length_take, hperm.length_eq]
  · exact hpw.1
  · rw [searchEntries, ← hs, hsplit]
    exact hperm

/-! ## Retriever -/

/-- The optional semester/course metadata filter of a retrieval request. -/
structure MetaFilter where
  course : Option String
  semester : Option String
deriving DecidableEq, Repr

/-- Does a chunk's metadata satisfy the filter?  An absent field matches
everything. -/
def matchesFilter (f : MetaFilter) (c : Chunk) : Bool :=
  (match f.course with
   | none => true
   | some x => c.course == x) &&
  (match f.semester with
   | none => true
   | some x => c.semester == x)

/-- Resolve a chunk id to its record in the chunk-metadata store. -/
def lookupChunk (store : List Chunk) (cid : ChunkId) : Option Chunk :=
  store.find? (fun c => c.id == cid)

/-- The candidate pre-filter the Retriever hands to the index search: a
chunk id passes when the store resolves it to a chunk whose metadata
satisfies the request filter. -/
def indexFilter (f : MetaFilter) (store : List Chunk) (cid : ChunkId) : Bool :=
  match lookupChunk store cid with
  | some c => matchesFilter f c
  | none => false

/-- Retriever configuration: the hard cap on k (the repository documentation
returns the top 3 sources). -/
structure RetrieverConfig where
  maxK : Nat
deriving DecidableEq, Repr

/-- Errors surfaced by the Retriever. -/
inductive RetrieveError where
  | embeddingUnavailable
deriving DecidableEq, Repr

/-- Modelled from the spec: `retrieve(query_text, k, filter)` of the
Retriever (rag.py is absent from the sources).  `embedded` is the Embedder
oracle applied to the query (`none` = embedding unavailable, fatal for the
query).  The requested k is capped at the configured maximum, the index is
searched with the metadata pre-filter, and surviving ids are resolved to
source passages. -/
def retrieve (cfg : RetrieverConfig) (m : Vec → Vec → ℚ)
    (embedded : Option Vec) (k : Nat) (f : MetaFilter)
    (entries : List IndexEntry) (store : List Chunk) :
    Except RetrieveError (List SourcePassage) :=
  match embedded with
  | none => .error .embeddingUnavailable
  | some qv =>
    .ok ((searchEntries m qv (min k cfg.maxK) (indexFilter f store)
        entries).filterMap
      (fun e => (lookupChunk store e.cid).map
        (fun c => SourcePassage.mk c.text c.course c.semester)))

lemma mem_searchEntries_filt (m : Vec → Vec → ℚ) (q : Vec) (k : Nat)
    (filt : ChunkId → Bool) (entries : List IndexEntry) (e : IndexEntry)
    (he : e ∈ searchEntries m q k filt entries) : filt e.cid = true := by
  have h1 : e ∈ (entries.filter (fun x => filt x.cid)).insertionSort
      (entryLE m q) := (List.take_sublist _ _).mem he
  have h2 : e ∈ entries.filter (fun x => filt x.cid) :=
    (List.perm_insertionSort (entryLE m q) _).mem_iff.mp h1
  exact (List.mem_filter.mp h2).2

/-- C4: a retrieved passage always satisfies the metadata filter (a passage
whose course or semester differs from a requested value is never returned),
and a filter matching zero indexed chunks yields the empty sequence, not an
error. -/
theorem retrieve_respects_filter (cfg : RetrieverConfig)
    (m : Vec → Vec → ℚ) (qv : Vec) (k : Nat) (f : MetaFilter)
    (entries : List IndexEntry) (store : List Chunk) :
    (∀ ps, retrieve cfg m (some qv) k f entries store = .ok ps →
      ∀ p ∈ ps, (∀ x, f.course = some x → p.course = x) ∧
        (∀ x, f.semester = some x → p.semester = x)) ∧
    ((∀ e ∈ entries, indexFilter f store e.cid = false) →
      retrieve cfg m (some qv) k f entries store = .ok []) := by
  constructor
  · intro ps hps p hp
    simp only [retrieve, Except.ok.injEq] at hps
    subst hps
    rcases List.mem_filterMap.mp hp with ⟨e, he, hresolve⟩
    have hfilt : indexFilter f store e.cid = true :=
      mem_searchEntries_filt _ _ _ _ _ _ he
    rcases Option.map_eq_some'.mp hresolve with ⟨c, hc, hpc⟩
    simp only [indexFilter, hc, matchesFilter, Bool.and_eq_true] at hfilt
    obtain ⟨hcourse, hsem⟩ := hfilt
    subst hpc
    constructor
    · intro x hx
      rw [hx] at hcourse
      simpa using hcourse
    · intro x hx
      rw [hx] at hsem
      simpa using hsem
  · intro hnone
    have hfil : entries.filter (fun e => indexFilter f store e.cid) = [] :=
      List.filter_eq_nil_iff.mpr (fun e he => by simp [hnone e he])
    simp [retrieve, searchEntries, hfil]

/-- A concrete arithmetic-free distance used to exercise the search and
retrieval definitions on literal inputs. -/
def demoMetric (_q v : Vec) : ℚ := v.headD 0

/-- A concrete two-chunk store: one DSA chunk, one Physics chunk. -/
def demoStore : List Chunk :=
  [Chunk.mk (ChunkId.mk "d1" 0) "DSA" "3" "DSA" 0 6 "bst intro",
   Chunk.mk (ChunkId.mk "d2" 0) "Physics" "1" "Physics" 0 5 "optics"]

/-- Index entries over `demoStore`. -/
def demoEntries : List IndexEntry :=
  [IndexEntry.mk (ChunkId.mk "d1" 0) [1, 0],
   IndexEntry.mk (ChunkId.mk "d2" 0) [2, 0]]

/-- Witness for C4: with filter course = DSA only the DSA passage comes
back, and with filter course = COA (matching nothing) the result is the
empty sequence. -/
theorem retrieve_respects_filter_witness :
    (∀ p ∈ [SourcePassage.mk "bst intro" "DSA" "3"],
      (∀ x, (MetaFilter.mk (some "DSA") none).course = some x →
        p.course = x) ∧
      (∀ x, (MetaFilter.mk (some "DSA") none).semester = some x →
        p.semester = x)) ∧
    retrieve (RetrieverConfig.mk 3) demoMetric (some [0, 0]) 2
      (MetaFilter.mk (some "COA") none) demoEntries demoStore = .ok [] :=
  ⟨(retrieve_respects_filter (RetrieverConfig.mk 3) demoMetric [0, 0] 2
      (MetaFilter.mk (some "DSA") none) demoEntries demoStore).1
      [SourcePassage.mk "bst intro" "DSA" "3"] rfl,
   (retrieve_respects_filter (RetrieverConfig.mk 3) demoMetric [0, 0] 2
      (MetaFilter.mk (some "COA") none) demoEntries demoStore).2
      (by decide)⟩

/-- C9: the Retriever caps the requested k at the configured maximum, so a
successful retrieval never returns more than `maxK` passages regardless of
the caller-requested k. -/
theorem retrieve_caps_k (cfg : RetrieverConfig) (m : Vec → Vec → ℚ)
    (embedded : Option Vec) (k : Nat) (f : MetaFilter)
    (entries : List IndexEntry) (store : List Chunk)
    (ps : List SourcePassage)
    (h : retrieve cfg m embedded k f entries store = .ok ps) :
    ps.length ≤ cfg.maxK := by
  cases embedded with
  | none => simp [retrieve] at h
  | some qv =>
    simp only [retrieve, Except.ok.injEq] at h
    subst h
    calc (List.filterMap _ _).length
        ≤ (searchEntries m qv (min k cfg.maxK) (indexFilter f store)
            entries).length := List.length_filterMap_le _ _
      _ ≤ min k cfg.maxK := by
          rw [searchEntries]; exact (List.length_take_le _ _)
      _ ≤ cfg.maxK := min_le_right _ _

/-- Witness for C9: a caller-requested k of 100 still returns at most the
configured 3 passages. -/
theorem retrieve_caps_k_witness :
    ([SourcePassage.mk "bst intro" "DSA" "3",
      SourcePassage.mk "optics" "Physics" "1"] : List SourcePassage).length ≤
      (RetrieverConfig.mk 3).maxK :=
  retrieve_caps_k (RetrieverConfig.mk 3) demoMetric (some [0, 0]) 100
    (MetaFilter.mk none none) demoEntries demoStore
    [SourcePassage.mk "bst intro" "DSA" "3",
     SourcePassage.mk "optics" "Physics" "1"] rfl

/-! ## Chunker -/

/-- Chunker configuration: maximum chunk length and overlap between
adjacent chunks, both in characters. -/
structure ChunkerConfig where
  maxLen : Nat
  overlap : Nat
deriving DecidableEq, Repr

/-- A source document with its static attributes (spec section 3). -/
structure Document where
  docId : String
  course : String
  semester : String
  subject : String
  text : String
deriving DecidableEq, Repr

/-- Sentence/paragraph boundary characters used for natural split points. -/
def isBoundaryChar (c : Char) : Bool :=
  c == '.' || c == '!' || c == '?' || c == '\n'

/-- Position right after the last boundary character of the list (0 when the
list has no boundary character). -/
def lastBoundaryAux : List Char → Nat → Nat → Nat
  | [], _, best => best
  | c :: rest, i, best =>
    lastBoundaryAux rest (i + 1) (if isBoundaryChar c then i + 1 else best)

/-- Position right after the last boundary character within a window. -/
def lastBoundary (cs : List Char) : Nat := lastBoundaryAux cs 0 0

/-- Modelled from the spec: the chunk segmentation loop of the Chunker
(ingestion/chunker.py is absent from the sources).  While the remaining text
exceeds the maximum length, cut at the last sentence/paragraph boundary in
the window, falling back to a hard cut at the maximum length when no natural
boundary exists; the next chunk starts `overlap` characters before the cut
(with progress forced for degenerate configurations).  Returns (start
offset, characters) pairs; `fuel` bounds the recursion and is instantiated
with the text length plus one. -/
def chunkSegsAux : Nat → ChunkerConfig → Nat → List Char →
    List (Nat × List Char)
  | 0, _, _, _ => []
  | _ + 1, _, _, [] => []
  | fuel + 1, cfg, pos, cs =>
    if cs.length ≤ cfg.maxLen then [(pos, cs)]
    else
      let b := lastBoundary (cs.take cfg.maxLen)
      let cut := max 1 (if b = 0 then cfg.maxLen else b)
      let step := if cut ≤ cfg.overlap then cut else cut - cfg.overlap
      (pos, cs.take cut) :: chunkSegsAux fuel cfg (pos + step) (cs.drop step)

/-- The segments of a document's text. -/
def docSegs (cfg : ChunkerConfig) (d : Document) : List (Nat × List Char) :=
  chunkSegsAux (d.text.data.length + 1) cfg 0 d.text.data

/-- `chunk(document)`: the ordered chunk sequence of a document, each chunk
carrying the id (document id, sequence index), provenance metadata, the
character offset range and the text. -/
def docChunks (cfg : ChunkerConfig) (d : Document) : List Chunk :=
  (docSegs cfg d).enum.map
    (fun p => Chunk.mk (ChunkId.mk d.docId p.1) d.course d.semester
      d.subject p.2.1 (p.2.1 + p.2.2.length) (String.mk p.2.2))

/-- Chunker failure on empty or unreadable input. -/
inductive ChunkError where
  | malformedDocument
deriving DecidableEq, Repr

/-- `chunk` with the `MalformedDocumentError` contract: empty input text is
rejected. -/
def chunkDoc (cfg : ChunkerConfig) (d : Document) :
    Except ChunkError (List Chunk) :=
  if d.text.data.isEmpty then .error .malformedDocument
  else .ok (docChunks cfg d)

lemma docChunks_ids (cfg : ChunkerConfig) (d : Document) :
    (docChunks cfg d).map Chunk.id =
      (List.range (docChunks cfg d).length).map (ChunkId.mk d.docId) := by
  have hlen : (docChunks cfg d).length = (docSegs cfg d).length := by
    simp [docChunks]
  rw [hlen, docChunks, List.map_map]
  have hcomp : (Chunk.id ∘ fun p : Nat × (Nat × List Char) =>
      Chunk.mk (ChunkId.mk d.docId p.1) d.course d.semester d.subject
        p.2.1 (p.2.1 + p.2.2.length) (String.mk p.2.2)) =
      ((ChunkId.mk d.docId) ∘ Prod.fst) := rfl
  rw [hcomp, ← List.map_map, List.enum_map_fst]

/-- C6: the Chunker is deterministic — equal documents under one
configuration yield identical chunk sequences (hence identical boundaries) —
and chunk ids are the document id paired with the sequence index, so the id
sequence depends only on the document id and the number of chunks, not on a
content hash. -/
theorem chunker_deterministic (cfg : ChunkerConfig) (d e : Document) :
    (d = e → chunkDoc cfg d = chunkDoc cfg e) ∧
    (docChunks cfg d).map Chunk.id =
      (List.range (docChunks cfg d).length).map (ChunkId.mk d.docId) ∧
    (d.docId = e.docId →
      (docChunks cfg d).length = (docChunks cfg e).length →
      (docChunks cfg d).map Chunk.id = (docChunks cfg e).map Chunk.id) := by
  refine ⟨fun h => by rw [h], docChunks_ids cfg d, fun hid hlen => ?_⟩
  rw [docChunks_ids cfg d, docChunks_ids cfg e, hid, hlen]

/-- Witness for C6: ids of a concrete two-chunk document are the document id
with indices 0 and 1, and a document with the same id but different text
produces the same id sequence. -/
theorem chunker_deterministic_witness :
    (docChunks (ChunkerConfig.mk 8 2)
        (Document.mk "doc1" "DSA" "3" "DSA" "abcde. fghij")).map Chunk.id =
      (docChunks (ChunkerConfig.mk 8 2)
        (Document.mk "doc1" "DSA" "3" "DSA" "vwxyz. qrstu")).map Chunk.id :=
  (chunker_deterministic (ChunkerConfig.mk 8 2)
      (Document.mk "doc1" "DSA" "3" "DSA" "abcde. fghij")
      (Document.mk "doc1" "DSA" "3" "DSA" "vwxyz. qrstu")).2.2
    rfl (by decide)

/-! ## Vector Index persistence -/

/-- Manifest persisted with the index for corruption detection at load time
(spec section 6). -/
structure IndexManifest where
  dimension : Nat
  metricName : String
  chunkCount : Nat
deriving DecidableEq, Repr

/-- The persisted index: manifest plus the opaque entry payload. -/
structure PersistedIndex where
  manifest : IndexManifest
  entries : List IndexEntry
deriving DecidableEq

/-- A loaded, servable index. -/
structure LoadedIndex where
  entries : List IndexEntry
deriving DecidableEq

/-- Load failure taxonomy. -/
inductive LoadError where
  | indexCorruption
deriving DecidableEq, Repr

/-- Modelled from the spec: the Vector Index `load` operation.  Loading an
index whose manifest chunk count disagrees with the chunk-metadata store's
expectation fails with `IndexCorruptionError`; only a matching index is
handed to the query path. -/
def loadIndex (p : PersistedIndex) (expectedCount : Nat) :
    Except LoadError LoadedIndex :=
  if p.manifest.chunkCount = expectedCount then .ok (LoadedIndex.mk p.entries)
  else .error .indexCorruption

/-- C8: loading an index whose chunk count disagrees with the
chunk-metadata store's expectation fails with `IndexCorruptionError`, and a
mismatched index can never reach the query path: any successfully loaded
index came from a persisted index whose chunk count matches. -/
theorem loadIndex_rejects_mismatch (p : PersistedIndex) (n : Nat) :
    (p.manifest.chunkCount ≠ n →
      loadIndex p n = .error .indexCorruption) ∧
    (∀ ix, loadIndex p n = .ok ix →
      p.manifest.chunkCount = n ∧ ix = LoadedIndex.mk p.entries) := by
  constructor
  · intro h
    simp [loadIndex, h]
  · intro ix hix
    by_cases h : p.manifest.chunkCount = n
    · refine ⟨h, ?_⟩
      simp only [loadIndex, if_pos h, Except.ok.injEq] at hix
      exact hix.symm
    · simp [loadIndex, h] at hix

/-- Witness for C8: a persisted index claiming 5 chunks against a store
expecting 4 is refused, and a matching one loads to its entries. -/
theorem loadIndex_rejects_mismatch_witness :
    (loadIndex (PersistedIndex.mk (IndexManifest.mk 2 "l2" 5) []) 4 =
      .error .indexCorruption) ∧
    ((5 : Nat) = 5 ∧
      LoadedIndex.mk ([] : List IndexEntry) = LoadedIndex.mk []) :=
  ⟨(loadIndex_rejects_mismatch
      (PersistedIndex.mk (IndexManifest.mk 2 "l2" 5) []) 4).1 (by decide),
   (loadIndex_rejects_mismatch
      (PersistedIndex.mk (IndexManifest.mk 2 "l2" 5) []) 5).2
     (LoadedIndex.mk []) rfl⟩

/-! ## Login page (frontend/src/app/login/page.tsx) -/

/-- A rendered React tree, as far as the login page needs. -/
inductive ReactNode where
  | text (s : String)
  | element (tag : String) (className : String) (children : List ReactNode)
  | suspense (fallback : ReactNode) (child : ReactNode)
  | component (name : String)

/-- The fixed fallback element of the login page: a `main` element showing
"Loading...". -/
def loginFallback : ReactNode :=
  ReactNode.element "main"
    "min-h-screen flex items-center justify-center bg-[#1e1e2e] text-[#cdd6f4]"
    [ReactNode.text "Loading..."]

/-- `LoginPage` from frontend/src/app/login/page.tsx: takes no props and
returns a Suspense boundary wrapping `LoginClient` with the fixed
fallback. -/
def LoginPage (_ : Unit) : ReactNode :=
  ReactNode.suspense loginFallback (ReactNode.component "LoginClient")

/-- The route segment option `dynamic` exported by the login page. -/
def loginDynamic : String := "force-dynamic"

/-- C10: `LoginPage` renders identically on every call — a Suspense
boundary with the fixed "Loading..." `main` fallback wrapping
`LoginClient` — and the page exports `dynamic = "force-dynamic"`, so the
route is never statically rendered. -/
theorem loginPage_deterministic :
    (∀ u v : Unit, LoginPage u = LoginPage v) ∧
    LoginPage () = ReactNode.suspense
      (ReactNode.element "main"
        "min-h-screen flex items-center justify-center bg-[#1e1e2e] text-[#cdd6f4]"
        [ReactNode.text "Loading..."])
      (ReactNode.component "LoginClient") ∧
    loginDynamic = "force-dynamic" :=
  ⟨fun _ _ => rfl, rfl, rfl⟩

/-! ## Ingestion Pipeline -/

/-- State owned by the Ingestion Pipeline: the Progress Ledger (document ids
marked complete), the append-only chunk-metadata store and the vector
index. -/
structure IngestState where
  ledger : List String
  store : List Chunk
  index : List IndexEntry
deriving DecidableEq

/-- Modelled from the spec: processing of one input document by the
Ingestion Pipeline (ingestion/ingest.py is absent from the sources).  A
document already marked complete in the ledger is skipped; a malformed
document is skipped without advancing the ledger; an embedding failure
(`embed` returning `none`) leaves ledger, store and index untouched — the
resumable failure of spec 4.2; on success the chunks are appended to the
store, their vectors to the index, and only then is the document marked
complete. -/
def processDoc (embed : List String → Option (List Vec))
    (cfg : ChunkerConfig) (st : IngestState) (d : Document) : IngestState :=
  if st.ledger.contains d.docId then st
  else
    match chunkDoc cfg d with
    | .error _ => st
    | .ok cs =>
      match embed (cs.map Chunk.text) with
      | none => st
      | some vs =>
        IngestState.mk (st.ledger ++ [d.docId]) (st.store ++ cs)
          (st.index ++ (cs.zip vs).map (fun p => IndexEntry.mk p.1.id p.2))

/-- One ingestion run over a document list from a given state. -/
def runIngest (embed : List String → Option (List Vec))
    (cfg : ChunkerConfig) (st : IngestState) (docs : List Document) :
    IngestState :=
  docs.foldl (processDoc embed cfg) st

/-- An embedding oracle that always succeeds (a healthy remote service). -/
def embedOK : List String → Option (List Vec) :=
  fun ts => some (ts.map (fun _ => []))

/-- An embedding oracle that always fails (retries exhausted). -/
def embedFail : List String → Option (List Vec) := fun _ => none

/-- The initial state of a fresh ingestion run. -/
def initialState : IngestState := IngestState.mk [] [] []

/-- A run killed after the first N documents were marked complete, then
restarted over the full document list. -/
def restartRun (cfg : ChunkerConfig) (docs : List Document) (N : Nat) :
    IngestState :=
  runIngest embedOK cfg (runIngest embedOK cfg initialState (docs.take N))
    docs

lemma chunkDoc_ok (cfg : ChunkerConfig) (d : Document) (h : d.text ≠ "") :
    chunkDoc cfg d = .ok (docChunks cfg d) := by
  rw [chunkDoc, if_neg]
  intro hemp
  exact h (String.ext (by simpa [List.isEmpty_iff] using hemp))

lemma runIngest_spec (cfg : ChunkerConfig) :
    ∀ (docs : List Document) (st : IngestState),
    (docs.map Document.docId).Nodup →
    (∀ d ∈ docs, d.text ≠ "") →
    (runIngest embedOK cfg st docs).ledger =
      st.ledger ++
        ((docs.filter (fun d => !st.ledger.contains d.docId)).map
          Document.docId) ∧
    (runIngest embedOK cfg st docs).store =
      st.store ++
        ((docs.filter (fun d => !st.ledger.contains d.docId)).map
          (docChunks cfg)).flatten := by
  intro docs
  induction docs with
  | nil => intro st _ _; simp [runIngest]
  | cons d rest ih =>
    intro st hnd htext
    have hndr : (rest.map Document.docId).Nodup := by
      simpa using (List.nodup_cons.mp (by simpa using hnd)).2
    have hdnotin : d.docId ∉ rest.map Document.docId :=
      (List.nodup_cons.mp (by simpa using hnd)).1
    have htextr : ∀ x ∈ rest, x.text ≠ "" :=
      fun x hx => htext x (List.mem_cons_of_mem d hx)
    have hrun : runIngest embedOK cfg st (d :: rest) =
        runIngest embedOK cfg (processDoc embedOK cfg st d) rest := rfl
    by_cases hin : d.docId ∈ st.ledger
    · have hpd : processDoc embedOK cfg st d = st := by
        simp [processDoc, hin]
      have := ih st hndr htextr
      rw [hrun, hpd]
      rw [List.filter_cons_of_neg (by simp [hin])]
      exact this
    · have hck := chunkDoc_ok cfg d (htext d (List.mem_cons_self d rest))
      have hpl : (processDoc embedOK cfg st d).ledger =
          st.ledger ++ [d.docId] := by
        simp [processDoc, hin, hck, embedOK]
      have hps : (processDoc embedOK cfg st d).store =
          st.store ++ docChunks cfg d := by
        simp [processDoc, hin, hck, embedOK]
      have hfil : rest.filter
          (fun x => !(processDoc embedOK cfg st d).ledger.contains x.docId) =
          rest.filter (fun x => !st.ledger.contains x.docId) := by
        apply List.filter_congr
        intro x hx
        have hxne : x.docId ≠ d.docId := by
          intro he
          exact hdnotin (he ▸ List.mem_map_of_mem Document.docId hx)
        rw [hpl]
        simp [hxne]
      have := ih (processDoc embedOK cfg st d) hndr htextr
      rw [hfil, hpl, hps] at this
      rw [hrun]
      rw [List.filter_cons_of_pos (by simp [hin])]
      refine ⟨?_, ?_⟩
      · rw [this.1, List.map_cons, List.append_assoc, List.singleton_append]
      · rw [this.2, List.map_cons, List.flatten_cons, List.append_assoc]

lemma processDoc_fail_ledger (cfg : ChunkerConfig) (st : IngestState)
    (d : Document) : (processDoc embedFail cfg st d).ledger = st.ledger := by
  unfold processDoc
  split
  · rfl
  · split
    · rfl
    · rfl

lemma docChunks_id_docId (cfg : ChunkerConfig) (d : Document) (x : ChunkId)
    (hx : x ∈ (docChunks cfg d).map Chunk.id) : x.docId = d.docId := by
  rw [docChunks_ids] at hx
  rcases List.mem_map.mp hx with ⟨i, _, hix⟩
  rw [← hix]

/-- C7: a run killed after the first N documents were marked complete and
then restarted over all M documents ends with the ledger holding exactly
the M document ids in order (so no document is processed twice), with the
chunk store holding each document's chunks exactly once and no duplicate
chunk ids, and a document whose embedding batch fails never advances the
ledger. -/
theorem ingest_restart_safe (cfg : ChunkerConfig) (docs : List Document)
    (N : Nat) (hnd : (docs.map Document.docId).Nodup)
    (htext : ∀ d ∈ docs, d.text ≠ "") :
    (restartRun cfg docs N).ledger = docs.map Document.docId ∧
    (restartRun cfg docs N).ledger.Nodup ∧
    (restartRun cfg docs N).store = (docs.map (docChunks cfg)).flatten ∧
    ((restartRun cfg docs N).store.map Chunk.id).Nodup ∧
    (∀ st d, (processDoc embedFail cfg st d).ledger = st.ledger) := by
  have hndT : ((docs.take N).map Document.docId).Nodup := by
    rw [List.map_take]
    exact (List.take_sublist N _).nodup hnd
  have hndD : ((docs.drop N).map Document.docId).Nodup := by
    rw [List.map_drop]
    exact (List.drop_sublist N _).nodup hnd
  have htextT : ∀ d ∈ docs.take N, d.text ≠ "" :=
    fun d hd => htext d ((List.take_sublist N docs).subset hd)
  have htextD : ∀ d ∈ docs.drop N, d.text ≠ "" :=
    fun d hd => htext d ((List.drop_sublist N docs).subset hd)
  have hdisj : List.Disjoint ((docs.take N).map Document.docId)
      ((docs.drop N).map Document.docId) := by
    apply List.disjoint_of_nodup_append
    rw [← List.map_append, List.take_append_drop]
    exact hnd
  set st1 := runIngest embedOK cfg initialState (docs.take N) with hst1
  have h1 := runIngest_spec cfg (docs.take N) initialState hndT htextT
  have hfilT : (docs.take N).filter
      (fun d => !initialState.ledger.contains d.docId) = docs.take N :=
    List.filter_eq_self.mpr (fun a _ => by simp [initialState])
  rw [hfilT] at h1
  have hl1 : st1.ledger = (docs.take N).map Document.docId := by
    rw [← hst1] at h1
    simpa [initialState] using h1.1
  have hs1 : st1.store = ((docs.take N).map (docChunks cfg)).flatten := by
    rw [← hst1] at h1
    simpa [initialState] using h1.2
  set stm := runIngest embedOK cfg st1 (docs.take N) with hstm
  have h2 := runIngest_spec cfg (docs.take N) st1 hndT htextT
  have hfilT2 : (docs.take N).filter
      (fun d => !st1.ledger.contains d.docId) = [] := by
    apply List.filter_eq_nil_iff.mpr
    intro a ha
    have hmem : a.docId ∈ st1.ledger := by
      rw [hl1]
      exact List.mem_map_of_mem Document.docId ha
    simp [hmem]
  rw [hfilT2] at h2
  have hlm : stm.ledger = (docs.take N).map Document.docId := by
    rw [← hstm] at h2
    rw [h2.1, hl1, List.map_nil, List.append_nil]
  have hsm : stm.store = ((docs.take N).map (docChunks cfg)).flatten := by
    rw [← hstm] at h2
    rw [h2.2, hs1, List.map_nil, List.flatten_nil, List.append_nil]
  have hrr : restartRun cfg docs N = runIngest embedOK cfg stm (docs.drop N) := by
    have key : ∀ s : IngestState, runIngest embedOK cfg s docs =
        runIngest embedOK cfg (runIngest embedOK cfg s (docs.take N))
          (docs.drop N) := by
      intro s
      show List.foldl (processDoc embedOK cfg) s docs =
        List.foldl (processDoc embedOK cfg)
          (List.foldl (processDoc embedOK cfg) s (docs.take N)) (docs.drop N)
      conv_lhs => rw [← List.take_append_drop N docs]
      rw [List.foldl_append]
    rw [restartRun, ← hst1, key st1, ← hstm]
  have h3 := runIngest_spec cfg (docs.drop N) stm hndD htextD
  have hfilD : (docs.drop N).filter
      (fun d => !stm.ledger.contains d.docId) = docs.drop N := by
    apply List.filter_eq_self.mpr
    intro a ha
    have hnotin : a.docId ∉ stm.ledger := by
      rw [hlm]
      intro hmem
      exact hdisj hmem (List.mem_map_of_mem Document.docId ha)
    simp [hnotin]
  rw [hfilD] at h3
  have hledger : (restartRun cfg docs N).ledger = docs.map Document.docId := by
    rw [hrr, h3.1, hlm, ← List.map_append, List.take_append_drop]
  have hstore : (restartRun cfg docs N).store =
      (docs.map (docChunks cfg)).flatten := by
    rw [hrr, h3.2, hsm, ← List.flatten_append, ← List.map_append,
      List.take_append_drop]
  refine ⟨hledger, ?_, hstore, ?_, processDoc_fail_ledger cfg⟩
  · rw [hledger]
    exact hnd
  · rw [hstore, List.map_flatten, List.map_map]
    apply List.nodup_flatten.mpr
    constructor
    · intro l hl
      rcases List.mem_map.mp hl with ⟨d, _, hdl⟩
      rw [← hdl]
      show ((docChunks cfg d).map Chunk.id).Nodup
      rw [docChunks_ids]
      have hinj : Function.Injective (ChunkId.mk d.docId) :=
        fun a b h => by simpa using congrArg ChunkId.idx h
      exact (List.nodup_range _).map hinj
    · have hne : docs.Pairwise (fun a b => a.docId ≠ b.docId) :=
        List.pairwise_map.mp hnd
      apply List.Pairwise.map _ _ hne
      intro a b hab x hxa hxb
      have hxa2 : x.docId = a.docId := docChunks_id_docId cfg a x hxa
      have hxb2 : x.docId = b.docId := docChunks_id_docId cfg b x hxb
      exact hab (hxa2 ▸ hxb2)

/-- A concrete chunker configuration for exercising the pipeline. -/
def demoCfg : ChunkerConfig := ChunkerConfig.mk 8 2

/-- Two concrete documents with distinct ids and non-empty text. -/
def demoDocs : List Document :=
  [Document.mk "d1" "DSA" "3" "DSA" "abc",
   Document.mk "d2" "Physics" "1" "Physics" "xy"]

/-- Witness for C7: the two-document run killed after the first document
and restarted ends with both documents complete, a duplicate-free ledger
and store, and a failing embedding batch leaves any ledger unchanged. -/
theorem ingest_restart_safe_witness :
    (restartRun demoCfg demoDocs 1).ledger =
      demoDocs.map Document.docId ∧
    (restartRun demoCfg demoDocs 1).ledger.Nodup ∧
    (restartRun demoCfg demoDocs 1).store =
      (demoDocs.map (docChunks demoCfg)).flatten ∧
    ((restartRun demoCfg demoDocs 1).store.map Chunk.id).Nodup ∧
    (∀ st d, (processDoc embedFail demoCfg st d).ledger = st.ledger) :=
  ingest_restart_safe demoCfg demoDocs 1 (by decide) (by decide)
